import Mathlib

/-!
Shallow embedding of the call-orchestration and routing-decision core of the
dealer-BDC repository (packages/core, packages/jobs, packages/webhooks and the
database schema), together with proofs about that embedding.

Conventions used throughout:
* database tables are explicit lists of rows, in stored order; a query with an
  `orderBy` clause is modelled as a stable sort of the filtered rows (ties keep
  stored order);
* JavaScript `Array.prototype.sort` (guaranteed stable since ES2019) is also
  modelled by the same stable sort;
* fallible operations return `Except`/`Option`;
* machine integers of the schema (`integer` columns) are modelled as `Int`.
-/

namespace DealerBDC

/-- Stable insertion of `x` into a list that is already sorted by `key` in
descending order: `x` passes over strictly larger keys and stops in front of
the first element whose key is not larger, so elements with equal keys keep
their original relative order. -/
def insertDescBy (key : α → Int) (x : α) : List α → List α
  | [] => [x]
  | y :: ys => if key x < key y then y :: insertDescBy key x ys else x :: y :: ys

/-- Stable sort by `key`, descending.  Any two stable sorts agree extensionally,
so this models both a SQL `ORDER BY key DESC` over the stored row order and the
(stable) JavaScript `Array.prototype.sort` with comparator `(a, b) => key b - key a`. -/
def sortDescBy (key : α → Int) : List α → List α
  | [] => []
  | x :: xs => insertDescBy key x (sortDescBy key xs)

/-! ## Shared utilities (packages/shared/src/utils/index.ts) -/

/-- `phoneUtils.toE164`: strip all non-digit characters, then add the default
country code for 10-digit numbers, a plus for 11-digit numbers starting with 1,
and otherwise prepend a plus (the branch testing for a leading plus can never
fire, because every non-digit character was already removed).  No caller
overrides the `defaultCountryCode` parameter, so it is inlined as `"+1"`. -/
def toE164 (phone : String) : String :=
  let defaultCountryCode := "+1"
  let digits := String.mk (phone.toList.filter Char.isDigit)
  if digits.length == 10 then defaultCountryCode ++ digits
  else if digits.length == 11 && digits.startsWith "1" then "+" ++ digits
  else if digits.startsWith "+" then digits
  else "+" ++ digits

/-- The value space of a JavaScript expression that may be a row object,
`undefined`, or `null`. -/
inductive JsVal (α : Type) where
  | undefined
  | null
  | value (a : α)
deriving DecidableEq

/-- Drizzle's relational `findFirst`: resolves with the first matching row, or
with `undefined` when no row matches; it never resolves with `null` (the rest
of this code base normalizes its result with a trailing `|| null`). -/
def findFirstJs (p : α → Bool) (rows : List α) : JsVal α :=
  match rows.find? p with
  | some r => .value r
  | none => .undefined

/-- JavaScript strict inequality `x !== null`: false only on the literal
`null` value, true on `undefined` and on every object. -/
def jsStrictNeNull : JsVal α → Bool
  | .null => false
  | _ => true

/-- Decidable equality for `Except` results, used to evaluate the embedded
operations at concrete inputs. -/
instance [DecidableEq ε] [DecidableEq α] : DecidableEq (Except ε α) := fun x y =>
  match x, y with
  | .ok a, .ok b =>
    if h : a = b then .isTrue (by rw [h])
    else .isFalse (by intro hh; cases hh; exact h rfl)
  | .ok _, .error _ => .isFalse (by intro hh; cases hh)
  | .error _, .ok _ => .isFalse (by intro hh; cases hh)
  | .error e, .error f =>
    if h : e = f then .isTrue (by rw [h])
    else .isFalse (by intro hh; cases hh; exact h rfl)

/-! ## Opt-outs (packages/core/src/services/lead-service.ts) -/

/-- A row of the `opt_outs` table (packages/database/src/schema/index.ts):
`phone` and `email` are nullable columns, `optOutType` is one of
`call | sms | email | all`. -/
structure OptOutRecord where
  dealerId : String
  phone : Option String
  email : Option String
  optOutType : String
deriving DecidableEq

/-- The SQL `WHERE` clause of `LeadService.isOptedOut`: same dealer, the
nullable `phone` column equals the normalized phone (SQL `NULL` never equals a
string, hence the `some`), and the opt-out type is the requested channel or
the catch-all `all`. -/
def optOutMatches (dealerId normalizedPhone channel : String) (r : OptOutRecord) : Bool :=
  r.dealerId == dealerId && r.phone == some normalizedPhone &&
    (r.optOutType == channel || r.optOutType == "all")

/-- `LeadService.isOptedOut` (lead-service.ts lines 330-342): normalize the
phone, `findFirst` over `opt_outs` with the clause above, and return the value
of the source expression `optOut !== null`. -/
def isOptedOut (optOutTable : List OptOutRecord) (dealerId phone : String)
    (channel : String) : Bool :=
  let normalizedPhone := toE164 phone
  let optOut := findFirstJs (optOutMatches dealerId normalizedPhone channel) optOutTable
  jsStrictNeNull optOut

/-- Modelled from the spec: the compliance gate is blocked exactly when a
matching opt-out record exists (absence of a record means not suppressed). -/
def specOptedOut (optOutTable : List OptOutRecord) (dealerId phone channel : String) : Bool :=
  optOutTable.any (optOutMatches dealerId (toE164 phone) channel)

/-! ## Calling profiles and rate limits (dealer-service.ts) -/

/-- A row of `dealer_calling_profiles`, restricted to the columns the
orchestration core reads. -/
structure CallingProfile where
  dealerId : String
  callingHoursStart : String
  callingHoursEnd : String
  callingDaysOfWeek : List Int
  maxConcurrentCalls : Int
  maxCallsPerHour : Int
  maxAttemptsPerLead : Int
  retryDelayMinutes : List Int
  honorDnc : Bool
  requireConsent : Bool
deriving DecidableEq

/-- The fallback profile object built inline by `DealerService.getCallingProfile`
when no row exists for the dealer (fail-open defaults). -/
def defaultCallingProfile (dealerId : String) : CallingProfile :=
  { dealerId := dealerId
    callingHoursStart := "08:00:00"
    callingHoursEnd := "20:00:00"
    callingDaysOfWeek := [1, 2, 3, 4, 5, 6]
    maxConcurrentCalls := 3
    maxCallsPerHour := 50
    maxAttemptsPerLead := 3
    retryDelayMinutes := [30, 120, 1440]
    honorDnc := true
    requireConsent := true }

/-- `DealerService.getCallingProfile`: the stored profile row for the dealer,
or the default profile when none exists. -/
def getCallingProfile (profiles : List CallingProfile) (dealerId : String) : CallingProfile :=
  match profiles.find? (fun p => p.dealerId == dealerId) with
  | some p => p
  | none => defaultCallingProfile dealerId

/-- The object returned by `DealerService.getRateLimitState`. -/
structure RateLimitState where
  concurrentCalls : Int
  maxConcurrentCalls : Int
  callsThisHour : Int
  maxCallsPerHour : Int
  canMakeCall : Bool
deriving DecidableEq

/-- `DealerService.getRateLimitState` (dealer-service.ts lines 165-177).  The
source body reads, verbatim: `TODO: Query active calls and recent calls from
database` / `For now, return defaults`, and returns the constants below.  The
function consults no call data at all, which is why this embedding only takes
the profile. -/
def getRateLimitState (profile : CallingProfile) : RateLimitState :=
  { concurrentCalls := 0
    maxConcurrentCalls := profile.maxConcurrentCalls
    callsThisHour := 0
    maxCallsPerHour := profile.maxCallsPerHour
    canMakeCall := true }

/-- The two `RateLimitError` causes the service can raise:
`'concurrent calls'` and `'hourly calls'`. -/
inductive RateLimitCause where
  | concurrent
  | hourly
deriving DecidableEq

/-- `DealerService.checkRateLimits` (dealer-service.ts lines 182-192): compare
the rate-limit state against its ceilings and raise the distinguishing
`RateLimitError` when one is reached. -/
def checkRateLimits (profile : CallingProfile) : Except RateLimitCause Unit :=
  let state := getRateLimitState profile
  if state.concurrentCalls ≥ state.maxConcurrentCalls then .error .concurrent
  else if state.callsThisHour ≥ state.maxCallsPerHour then .error .hourly
  else .ok ()

/-! ## Calling window (dealer-service.ts lines 75-101) -/

/-- The wall-clock data `date-fns` extracts from a zoned date: `getDay`
(0 = Sunday .. 6 = Saturday), `getHours` and `getMinutes`. -/
structure ZonedDate where
  dayOfWeek : Int
  hours : Int
  minutes : Int
deriving DecidableEq

/-- JavaScript `Number(s)` restricted to the strings that reach it here (the
components of a `time` column value such as `08:00:00`): the empty string is
0, a digit string is its value, anything else is `NaN`, modelled as `none`. -/
def jsNumberOfString (s : String) : Option Int :=
  let cs := s.toList
  if cs.isEmpty then some 0
  else if cs.all Char.isDigit then
    some (Int.ofNat (cs.foldl (fun n c => n * 10 + (c.toNat - 48)) 0))
  else none

/-- Helper for `splitOnChar`: accumulate the current chunk (reversed). -/
def splitOnCharAux (sep : Char) : List Char → List Char → List String
  | [], acc => [String.mk acc.reverse]
  | c :: cs, acc =>
    if c == sep then String.mk acc.reverse :: splitOnCharAux sep cs []
    else splitOnCharAux sep cs (c :: acc)

/-- JavaScript `s.split(sep)` for a single-character separator. -/
def splitOnChar (sep : Char) (s : String) : List String :=
  splitOnCharAux sep s.toList []

/-- `Number(parts[i])` where `parts[i]` may be `undefined`
(`Number(undefined)` is `NaN`). -/
def jsNumberAt (parts : List String) (i : Nat) : Option Int :=
  match parts[i]? with
  | some s => jsNumberOfString s
  | none => none

/-- `const [h, m] = s.split(':').map(Number)` followed by `h * 60 + m`;
`none` models a `NaN` that poisons every later comparison to false. -/
def timeToMinutes (s : String) : Option Int :=
  let parts := splitOnChar ':' s
  match jsNumberAt parts 0, jsNumberAt parts 1 with
  | some h, some m => some (h * 60 + m)
  | _, _ => none

/-- A row of the `dealers` table, restricted to the columns this check reads. -/
structure Dealer where
  id : String
  timezone : String
  status : String
deriving DecidableEq

/-- `DealerService.isWithinCallingWindow`.  Converting an instant to
dealer-local wall-clock time (`toZonedTime(date, dealer.timezone)`) needs the
IANA timezone database, which is outside this embedding: the conversion is an
opaque `tzConvert` argument and every theorem quantifies over it.  The rest is
the source logic: reject when the local weekday is not allowed, else compare
local minutes-since-midnight against the parsed start and end times. -/
def isWithinCallingWindow (tzConvert : String → Int → ZonedDate)
    (dealer : Dealer) (profiles : List CallingProfile) (date : Int) : Bool :=
  let profile := getCallingProfile profiles dealer.id
  let zonedDate := tzConvert dealer.timezone date
  if !(profile.callingDaysOfWeek.contains zonedDate.dayOfWeek) then false
  else
    let currentTimeMinutes := zonedDate.hours * 60 + zonedDate.minutes
    match timeToMinutes profile.callingHoursStart, timeToMinutes profile.callingHoursEnd with
    | some startTimeMinutes, some endTimeMinutes =>
        decide (startTimeMinutes ≤ currentTimeMinutes ∧ currentTimeMinutes ≤ endTimeMinutes)
    | _, _ => false

/-! ## Provider status mapping (signalwire webhook handler) -/

/-- The literal translation table inside `mapSignalWireStatus`. -/
def signalwireStatusMap : List (String × String) :=
  [("queued", "initiated"), ("initiated", "initiated"), ("ringing", "ringing"),
   ("in-progress", "answered"), ("completed", "completed"), ("failed", "failed"),
   ("busy", "busy"), ("no-answer", "no_answer"), ("canceled", "failed")]

/-- `mapSignalWireStatus(status)` restricted to keys that do not hit the
prototype chain: the own-key lookup of `statusMap[signalwireStatus]` with the
`|| 'initiated'` fallback (every mapped value is a truthy string, so among
non-inherited keys the fallback fires exactly on a missing one).
`mapSignalWireStatusJs` below is the full JavaScript model, including
inherited `Object.prototype` members; the two agree on every status outside
`objectPrototypeKeys`, which covers the inputs the webhook embedding feeds
through here. -/
def mapSignalWireStatus (signalwireStatus : String) : String :=
  match signalwireStatusMap.lookup signalwireStatus with
  | some v => v
  | none => "initiated"

/-- The property names every plain JavaScript object literal inherits from
`Object.prototype`; each is bound to a truthy value (a built-in function, or,
for the `__proto__` accessor, the prototype object itself). -/
def objectPrototypeKeys : List String :=
  ["constructor", "hasOwnProperty", "isPrototypeOf", "propertyIsEnumerable",
   "toLocaleString", "toString", "valueOf", "__defineGetter__",
   "__defineSetter__", "__lookupGetter__", "__lookupSetter__", "__proto__"]

/-- A value the expression `statusMap[status] || 'initiated'` can evaluate
to: one of the mapped strings or the fallback string, or a truthy member
inherited from `Object.prototype` — a function or object, never a string. -/
inductive StatusLookupResult where
  | str (s : String)
  | inheritedMember (name : String)
deriving DecidableEq

/-- `mapSignalWireStatus` with JavaScript bracket-lookup semantics modelled in
full: `statusMap[signalwireStatus]` finds an own key of the object literal
first and otherwise consults the prototype chain; an inherited
`Object.prototype` member is truthy, so the `|| 'initiated'` fallback fires
only when the key is neither own nor inherited. -/
def mapSignalWireStatusJs (signalwireStatus : String) : StatusLookupResult :=
  match signalwireStatusMap.lookup signalwireStatus with
  | some v => .str v
  | none =>
    if objectPrototypeKeys.contains signalwireStatus then
      .inheritedMember signalwireStatus
    else .str "initiated"

/-! ## Routing engine (packages/core/src/routing/routing-engine.ts) -/

/-- A JSON value as stored in the `conditions` jsonb column. -/
inductive Json where
  | str (s : String)
  | num (n : Int)
  | bool (b : Bool)
  | null
  | arr (elems : List Json)
  | obj (fields : List (String × Json))

/-- A JavaScript number in the positions the routing engine computes with:
`NaN`, the two infinities used as open range bounds, or an integer. -/
inductive JsNum where
  | nan
  | posInf
  | negInf
  | int (n : Int)
deriving DecidableEq

/-- JavaScript `a >= b`: false whenever either side is `NaN`. -/
def jsGe : JsNum → JsNum → Bool
  | .nan, _ => false
  | _, .nan => false
  | .posInf, _ => true
  | .int _, .posInf => false
  | .negInf, .posInf => false
  | _, .negInf => true
  | .negInf, .int _ => false
  | .int a, .int b => decide (a ≥ b)

/-- JavaScript `a <= b`. -/
def jsLe (a b : JsNum) : Bool := jsGe b a

/-- JavaScript `Number(x)` on a JSON value in a `min`/`max` bound position:
numbers are themselves, `null` is 0, booleans are 0/1, digit strings parse;
arrays and objects are modelled as `NaN` (rule conditions put plain numbers
here). -/
def jsonToNumber : Json → JsNum
  | .num n => .int n
  | .null => .int 0
  | .bool b => .int (if b then 1 else 0)
  | .str s => match jsNumberOfString s with
    | some n => .int n
    | none => .nan
  | .arr _ => .nan
  | .obj _ => .nan

/-- JavaScript truthiness of a JSON value. -/
def jsonTruthy : Json → Bool
  | .str s => s != ""
  | .num n => n != 0
  | .bool b => b
  | .null => false
  | .arr _ => true
  | .obj _ => true

/-- The JavaScript `'key' in obj` property test on a JSON object. -/
def objHas (fields : List (String × Json)) (k : String) : Bool :=
  (fields.find? (fun p => p.1 == k)).isSome

/-- The JavaScript property access `obj.key` on a JSON object
(`none` is `undefined`). -/
def objGet (fields : List (String × Json)) (k : String) : Option Json :=
  (fields.find? (fun p => p.1 == k)).map (fun p => p.2)

/-- The `RoutingContext` interface of routing-engine.ts. -/
structure RoutingContext where
  dealerId : String
  storeId : Option String
  department : Option String
  vehicleOfInterest : Option String
  source : Option String
  intentScore : Option Int
  leadValue : Option Int
  metadata : Option (List (String × Json))

/-- The value of `context[key]` in JavaScript: a string, a number, the
metadata object, or `undefined` (never `null`, since the interface fields are
optional, not nullable). -/
inductive CtxVal where
  | undefined
  | str (s : String)
  | num (n : Int)
  | obj (fields : List (String × Json))

def ctxOptStr : Option String → CtxVal
  | some s => .str s
  | none => .undefined

def ctxOptNum : Option Int → CtxVal
  | some n => .num n
  | none => .undefined

/-- `context[key as keyof RoutingContext]`: the named field, or `undefined`
for any other key.  As with `mapSignalWireStatus`, this omits inherited
`Object.prototype` members for keys such as `constructor` (the model reads
`undefined` there); `route` and the spec-side selection share this evaluator,
so the restriction affects no routing theorem. -/
def ctxLookup (ctx : RoutingContext) (key : String) : CtxVal :=
  if key == "dealerId" then .str ctx.dealerId
  else if key == "storeId" then ctxOptStr ctx.storeId
  else if key == "department" then ctxOptStr ctx.department
  else if key == "vehicleOfInterest" then ctxOptStr ctx.vehicleOfInterest
  else if key == "source" then ctxOptStr ctx.source
  else if key == "intentScore" then ctxOptNum ctx.intentScore
  else if key == "leadValue" then ctxOptNum ctx.leadValue
  else if key == "metadata" then
    match ctx.metadata with
    | some m => .obj m
    | none => .undefined
  else .undefined

/-- `Number(contextValue)`: `Number(undefined)` and `Number(object)` are `NaN`. -/
def ctxToNumber : CtxVal → JsNum
  | .undefined => .nan
  | .str s => match jsNumberOfString s with
    | some n => .int n
    | none => .nan
  | .num n => .int n
  | .obj _ => .nan

/-- JavaScript strict equality `contextValue === conditionValue` between a
context value and a JSON literal: equal strings or equal numbers; every other
combination (including object against object, which compares references) is
false. -/
def jsStrictEq : CtxVal → Json → Bool
  | .str a, .str b => a == b
  | .num a, .num b => a == b
  | _, _ => false

/-- `contextValue !== undefined && contextValue !== null` (context values are
never `null` here). -/
def ctxIsDefined : CtxVal → Bool
  | .undefined => false
  | _ => true

/-- `RoutingEngine.evaluateCondition` (routing-engine.ts lines 158-189): for an
object-shaped condition value, a `min`/`max` range check with open sides
defaulting to the infinities, else an `in`-array membership check, else an
`exists` presence check; for everything else (and as the object fallthrough)
strict equality against the context field. -/
def evaluateCondition (key : String) (conditionValue : Json) (ctx : RoutingContext) : Bool :=
  let contextValue := ctxLookup ctx key
  match conditionValue with
  | .obj fields =>
    if objHas fields "min" || objHas fields "max" then
      let numValue := ctxToNumber contextValue
      let minValue := match objGet fields "min" with
        | some j => jsonToNumber j
        | none => .negInf
      let maxValue := match objGet fields "max" with
        | some j => jsonToNumber j
        | none => .posInf
      jsGe numValue minValue && jsLe numValue maxValue
    else
      match objGet fields "in" with
      | some (.arr elems) => elems.any (fun e => jsStrictEq contextValue e)
      | _ =>
        match objGet fields "exists" with
        | some e =>
          if jsonTruthy e then ctxIsDefined contextValue else !(ctxIsDefined contextValue)
        | none => jsStrictEq contextValue conditionValue
  | _ => jsStrictEq contextValue conditionValue

/-- `RoutingEngine.evaluateRuleConditions` (lines 136-153): an empty condition
set matches everything, otherwise every entry must match (AND logic over the
object entries). -/
def evaluateRuleConditions (conditions : List (String × Json)) (ctx : RoutingContext) : Bool :=
  if conditions.isEmpty then true
  else conditions.all (fun p => evaluateCondition p.1 p.2 ctx)

/-- A row of the `routing_rules` table. -/
structure RoutingRule where
  id : String
  dealerId : String
  storeId : Option String
  name : String
  priority : Int
  conditions : List (String × Json)
  routeToType : String
  routeToId : Option String
  fallbackRuleId : Option String
  active : Bool

/-- A row of the `dealer_users` table, restricted to the columns routing
reads.  The nullable `transferPriority` column defaults to 0. -/
structure DealerUser where
  id : String
  dealerId : String
  email : String
  phone : Option String
  firstName : String
  lastName : String
  role : String
  department : Option String
  acceptsTransfers : Bool
  transferPriority : Int
  status : String
deriving DecidableEq

/-- The `user` payload embedded in a resolved `RoutingTarget`. -/
structure UserInfo where
  id : String
  firstName : String
  lastName : String
  phone : String
  email : String
  role : String
  department : Option String
deriving DecidableEq

/-- The `RoutingTarget` interface of routing-engine.ts. -/
structure RoutingTarget where
  type : String
  userId : Option String
  user : Option UserInfo
  fallbackRuleId : Option String
deriving DecidableEq

/-- The target object both user-resolution helpers build (`user.phone || ''`). -/
def mkUserTarget (u : DealerUser) : RoutingTarget :=
  { type := "user"
    userId := some u.id
    user := some
      { id := u.id
        firstName := u.firstName
        lastName := u.lastName
        phone := u.phone.getD ""
        email := u.email
        role := u.role
        department := u.department }
    fallbackRuleId := none }

/-- `RoutingEngine.findAvailableUser` (lines 232-259): `findFirst` over
`dealer_users` by id, active status, and accepts-transfers. -/
def findAvailableUser (users : List DealerUser) (userId : String) : Option RoutingTarget :=
  match users.find? (fun u =>
      u.id == userId && u.status == "active" && u.acceptsTransfers) with
  | some u => some (mkUserTarget u)
  | none => none

/-- `RoutingEngine.findAvailableUserByDepartment` (lines 265-300): the dealer's
active transfer-accepting users of the department, ordered by transfer priority
descending; the head wins. -/
def findAvailableUserByDepartment (users : List DealerUser) (dealerId : String)
    (department : Option String) : Option RoutingTarget :=
  match department with
  | none => none
  | some dept =>
    match sortDescBy (fun u => u.transferPriority)
        (users.filter (fun u =>
          u.dealerId == dealerId && u.department == some dept &&
          u.status == "active" && u.acceptsTransfers)) with
    | [] => none
    | u :: _ => some (mkUserTarget u)

/-- The value `(rule.conditions as Record<string, unknown>).department as
string` that department routing passes on: kept only when the rule's
`department` condition is a string (a non-string value here would make the SQL
comparison malformed and match no user). -/
def conditionsDepartment (conditions : List (String × Json)) : Option String :=
  match objGet conditions "department" with
  | some (.str s) => some s
  | _ => none

/-- `RoutingEngine.resolveRuleTarget` (lines 194-227): dispatch on the rule's
target type; `team` routing is unimplemented (`return null`), `voicemail`
returns the bare voicemail target, unknown types return `null`. -/
def resolveRuleTarget (users : List DealerUser) (rule : RoutingRule) : Option RoutingTarget :=
  if rule.routeToType == "user" then
    match rule.routeToId with
    | none => none
    | some uid => findAvailableUser users uid
  else if rule.routeToType == "department" then
    findAvailableUserByDepartment users rule.dealerId (conditionsDepartment rule.conditions)
  else if rule.routeToType == "team" then none
  else if rule.routeToType == "voicemail" then
    some { type := "voicemail", userId := none, user := none, fallbackRuleId := none }
  else none

/-- The `WHERE` clause shared by both queries of `getActiveRules`. -/
def ruleIsActiveForDealer (dealerId : String) (r : RoutingRule) : Bool :=
  r.dealerId == dealerId && r.active

/-- `RoutingEngine.getActiveRules` (lines 107-130): without a store id, the
dealer's active rules sorted by priority descending.  With a store id, the
dealer query (which is NOT restricted to dealer-level rules — it returns the
store-scoped rules a second time) and the store query are concatenated
store-first and re-sorted by priority with the stable array sort, so
store-scoped rules precede dealer-wide rules of equal priority. -/
def getActiveRules (rulesTable : List RoutingRule) (dealerId : String)
    (storeId : Option String) : List RoutingRule :=
  match storeId with
  | none =>
    sortDescBy (fun r => r.priority) (rulesTable.filter (ruleIsActiveForDealer dealerId))
  | some sid =>
    let dealerRules := sortDescBy (fun r => r.priority)
      (rulesTable.filter (ruleIsActiveForDealer dealerId))
    let storeRules := sortDescBy (fun r => r.priority)
      (rulesTable.filter (fun r => ruleIsActiveForDealer dealerId r && r.storeId == some sid))
    sortDescBy (fun r => r.priority) (storeRules ++ dealerRules)

/-- The two routing error classes of packages/shared:
`NoRoutingRuleError` and `NoAvailableRepError`. -/
inductive RouteError where
  | noRoutingRule
  | noAvailableRep
deriving DecidableEq

/-- The `for (const rule of rules)` loop of `RoutingEngine.route`: on a
condition match, try the rule's own target; failing that and if the rule names
a fallback, look the fallback rule up by id over the whole `routing_rules`
table (an unfiltered `findFirst`) and try its target; otherwise continue with
the remaining rules.  Falling off the end raises `NoAvailableRepError`. -/
def routeAux (rulesTable : List RoutingRule) (users : List DealerUser)
    (ctx : RoutingContext) : List RoutingRule → Except RouteError RoutingTarget
  | [] => .error .noAvailableRep
  | rule :: rest =>
    if evaluateRuleConditions rule.conditions ctx then
      match resolveRuleTarget users rule with
      | some target => .ok target
      | none =>
        match rule.fallbackRuleId with
        | some fid =>
          match rulesTable.find? (fun r => r.id == fid) with
          | some fallbackRule =>
            match resolveRuleTarget users fallbackRule with
            | some t => .ok t
            | none => routeAux rulesTable users ctx rest
          | none => routeAux rulesTable users ctx rest
        | none => routeAux rulesTable users ctx rest
    else routeAux rulesTable users ctx rest

/-- `RoutingEngine.route` (lines 51-101): load the active rules; an empty rule
list raises `NoRoutingRuleError`; otherwise scan the rules in order. -/
def route (rulesTable : List RoutingRule) (users : List DealerUser)
    (ctx : RoutingContext) : Except RouteError RoutingTarget :=
  let rules := getActiveRules rulesTable ctx.dealerId ctx.storeId
  if rules.length == 0 then .error .noRoutingRule
  else routeAux rulesTable users ctx rules

/-- Modelled from the spec: the target a matched rule can supply — its own
resolved target or, failing that, its fallback rule's. -/
def specAvailableTarget (rulesTable : List RoutingRule) (users : List DealerUser)
    (rule : RoutingRule) : Option RoutingTarget :=
  match resolveRuleTarget users rule with
  | some t => some t
  | none =>
    match rule.fallbackRuleId with
    | some fid =>
      match rulesTable.find? (fun r => r.id == fid) with
      | some fallbackRule => resolveRuleTarget users fallbackRule
      | none => none
    | none => none

/-- Modelled from the spec: the first rule in the given order whose conditions
all match and which has an available target (its own or its fallback's)
supplies the result. -/
def specFirstTarget (rulesTable : List RoutingRule) (users : List DealerUser)
    (ctx : RoutingContext) : List RoutingRule → Option RoutingTarget
  | [] => none
  | rule :: rest =>
    if evaluateRuleConditions rule.conditions ctx then
      match specAvailableTarget rulesTable users rule with
      | some t => some t
      | none => specFirstTarget rulesTable users ctx rest
    else specFirstTarget rulesTable users ctx rest

/-! ## Call attempts and retries (call-service, dealer-service) -/

/-- A row of the `call_attempts` table, restricted to the columns the
scheduling logic touches.  The table carries the unique index
`unique_lead_attempt` on `(leadId, attemptNumber)`. -/
structure CallAttempt where
  dealerId : String
  leadId : String
  attemptNumber : Int
  status : String
  scheduledFor : Option Int
deriving DecidableEq

/-- `CallService.getLatestCallAttempt`: the lead's attempts ordered by attempt
number descending, limited to one row. -/
def getLatestCallAttempt (attempts : List CallAttempt) (leadId : String) : Option CallAttempt :=
  (sortDescBy (fun a => a.attemptNumber)
    (attempts.filter (fun a => a.leadId == leadId))).head?

/-- JavaScript `xs[i]` with a possibly negative index: negative or
out-of-range indices read `undefined`. -/
def jsIndex (xs : List Int) (i : Int) : Option Int :=
  if i < 0 then none else xs[i.toNat]?

/-- `DealerService.getRetryDelay` (dealer-service.ts lines 197-203):
`delayIndex = min(attemptNumber - 1, retryDelayMinutes.length - 1)` followed by
`retryDelayMinutes[delayIndex] || 1440` — the falsy fallback fires on an
out-of-range index and on a configured delay of 0. -/
def getRetryDelay (profile : CallingProfile) (attemptNumber : Int) : Int :=
  let delayIndex := min (attemptNumber - 1) ((profile.retryDelayMinutes.length : Int) - 1)
  match jsIndex profile.retryDelayMinutes delayIndex with
  | some d => if d == 0 then 1440 else d
  | none => 1440

/-- The errors attempt creation can produce: `MaxAttemptsError`, or the
database rejecting an insert that violates the `unique_lead_attempt` index. -/
inductive CallError where
  | maxAttempts (leadId : String) (ceiling : Int)
  | uniqueViolation
deriving DecidableEq

/-- `CallService.createCallAttempt` (lines 158-191): raise `MaxAttemptsError`
when the requested number exceeds the profile ceiling, then insert the row.
The function performs no existence check of its own; the insert is accepted by
the database only when no row with the same `(leadId, attemptNumber)` exists
(the `unique_lead_attempt` unique index of the schema), otherwise the insert —
and with it the whole step — fails. -/
def createCallAttempt (profile : CallingProfile) (attempts : List CallAttempt)
    (dealerId leadId : String) (attemptNumber : Int) (scheduledFor : Option Int) :
    Except CallError (List CallAttempt × CallAttempt) :=
  if attemptNumber > profile.maxAttemptsPerLead then
    .error (.maxAttempts leadId profile.maxAttemptsPerLead)
  else
    let attempt : CallAttempt :=
      { dealerId := dealerId
        leadId := leadId
        attemptNumber := attemptNumber
        status := if scheduledFor.isSome then "scheduled" else "pending"
        scheduledFor := scheduledFor }
    if attempts.any (fun a => a.leadId == leadId && a.attemptNumber == attemptNumber) then
      .error .uniqueViolation
    else
      .ok (attempts ++ [attempt], attempt)

/-- `CallService.scheduleRetry` (lines 217-229): the next attempt number is
`(latestAttempt?.attemptNumber || 0) + 1` (for integer attempt numbers the
`|| 0` only replaces a missing row, since `0 || 0` is still 0); the delay is
looked up for that number and the attempt is created scheduled for
`now + delayMinutes` minutes. -/
def scheduleRetry (profile : CallingProfile) (attempts : List CallAttempt)
    (dealerId leadId : String) (now : Int) : Except CallError (List CallAttempt × CallAttempt) :=
  let latestAttempt := getLatestCallAttempt attempts leadId
  let nextAttemptNumber := (match latestAttempt with
    | some a => a.attemptNumber
    | none => 0) + 1
  let delayMinutes := getRetryDelay profile nextAttemptNumber
  let scheduledFor := now + delayMinutes
  createCallAttempt profile attempts dealerId leadId nextAttemptNumber (some scheduledFor)

/-- Modelled from the spec: the highest existing attempt number for the
contact, or 0 when none exists (so the next number is one greater, or 1). -/
def highestExistingAttempt (attempts : List CallAttempt) (leadId : String) : Int :=
  ((attempts.filter (fun a => a.leadId == leadId)).map (fun a => a.attemptNumber)).foldr max 0

/-- Modelled from the spec: the delay list indexed at
`min(attemptNumber - 1, len(list) - 1)`. -/
def specRetryDelay (profile : CallingProfile) (attemptNumber : Int) : Int :=
  profile.retryDelayMinutes.getD
    (min (attemptNumber - 1) ((profile.retryDelayMinutes.length : Int) - 1)).toNat 0

/-! ## Call sessions (call-service, signalwire webhook handler) -/

/-- A row of the `call_sessions` table, restricted to the columns this logic
touches. -/
structure CallSession where
  id : String
  dealerId : String
  leadId : String
  signalwireCallSid : Option String
  fromNumber : String
  toNumber : String
  swaigSessionId : Option String
  status : String
  outcome : Option String
  answeredAt : Option Int
  endedAt : Option Int
  durationSeconds : Option Int
  transferredToUserId : Option String
  transferCompleted : Bool
  recordingUrl : Option String
deriving DecidableEq

/-- The `UpdateCallSessionInput` interface of call-service: every field
optional (`none` models an absent key, which the spread does not copy). -/
structure UpdateCallSessionInput where
  signalwireCallSid : Option String
  status : Option String
  outcome : Option String
  answeredAt : Option Int
  endedAt : Option Int
  durationSeconds : Option Int
  transferredToUserId : Option String
  transferCompleted : Option Bool
  recordingUrl : Option String
deriving DecidableEq

/-- The all-absent update. -/
def emptySessionUpdate : UpdateCallSessionInput :=
  { signalwireCallSid := none
    status := none
    outcome := none
    answeredAt := none
    endedAt := none
    durationSeconds := none
    transferredToUserId := none
    transferCompleted := none
    recordingUrl := none }

/-- A present input field overwrites the stored value, an absent one keeps it. -/
def overwrite (new old : Option α) : Option α :=
  match new with
  | some v => some v
  | none => old

/-- The drizzle `set({...input, updatedAt: new Date()})` of
`CallService.updateCallSession` applied to one row: present input fields
overwrite, absent fields keep the stored value.  There is no guard of any kind
on the session's current status. -/
def applySessionUpdate (s : CallSession) (u : UpdateCallSessionInput) : CallSession :=
  { s with
    signalwireCallSid := overwrite u.signalwireCallSid s.signalwireCallSid
    status := u.status.getD s.status
    outcome := overwrite u.outcome s.outcome
    answeredAt := overwrite u.answeredAt s.answeredAt
    endedAt := overwrite u.endedAt s.endedAt
    durationSeconds := overwrite u.durationSeconds s.durationSeconds
    transferredToUserId := overwrite u.transferredToUserId s.transferredToUserId
    transferCompleted := u.transferCompleted.getD s.transferCompleted
    recordingUrl := overwrite u.recordingUrl s.recordingUrl }

/-- `CallService.updateCallSession` (lines 115-128): unconditional update of
the row with the given id. -/
def updateCallSession (sessions : List CallSession) (callSessionId : String)
    (u : UpdateCallSessionInput) : List CallSession :=
  sessions.map (fun s => if s.id == callSessionId then applySessionUpdate s u else s)

/-- `CallService.getCallSessionBySignalwireSid`. -/
def getCallSessionBySignalwireSid (sessions : List CallSession) (sid : String) :
    Option CallSession :=
  sessions.find? (fun s => s.signalwireCallSid == some sid)

/-- The terminal session statuses of the state machine described by the
specification (and by the schema's status comment). -/
def isTerminalStatus (status : String) : Bool :=
  ["completed", "failed", "no_answer", "busy", "voicemail", "transferred"].contains status

/-- The update object the status webhook builds: always the mapped status,
plus duration and ended-at for a completed callback that carries a duration,
or answered-at for an in-progress callback. -/
def statusCallbackUpdates (callStatus : String) (duration : Option Int) (now : Int) :
    UpdateCallSessionInput :=
  let base := { emptySessionUpdate with status := some (mapSignalWireStatus callStatus) }
  if callStatus == "completed" && duration.isSome then
    { base with durationSeconds := duration, endedAt := some now }
  else if callStatus == "in-progress" then
    { base with answeredAt := some now }
  else base

/-- The `POST /webhooks/signalwire/status` handler (signalwire router lines
48-99): find the session by provider call SID and apply the mapped status
(plus duration/ended-at for a completed callback with duration, or answered-at
for an in-progress callback) unconditionally — the handler never inspects the
session's current status. -/
def handleStatusCallback (sessions : List CallSession) (callSid callStatus : String)
    (duration : Option Int) (now : Int) : List CallSession :=
  match getCallSessionBySignalwireSid sessions callSid with
  | none => sessions
  | some session =>
    updateCallSession sessions session.id (statusCallbackUpdates callStatus duration now)

/-! ## Concrete fixtures used to evaluate the embedded operations -/

/-- A routing context for dealer `d1` asking for the `new` department. -/
def exCtx : RoutingContext :=
  { dealerId := "d1", storeId := none, department := some "new",
    vehicleOfInterest := none, source := none, intentScore := none,
    leadValue := none, metadata := none }

/-- An active, transfer-accepting sales rep of dealer `d1`. -/
def exUserA : DealerUser :=
  { id := "uA", dealerId := "d1", email := "a@dealer.example", phone := some "+15550000001",
    firstName := "Ann", lastName := "Abel", role := "sales_rep", department := some "new",
    acceptsTransfers := true, transferPriority := 0, status := "active" }

/-- A second active, transfer-accepting sales rep of dealer `d1`. -/
def exUserB : DealerUser :=
  { id := "uB", dealerId := "d1", email := "b@dealer.example", phone := some "+15550000002",
    firstName := "Bob", lastName := "Baker", role := "sales_rep", department := some "new",
    acceptsTransfers := true, transferPriority := 0, status := "active" }

/-- Catch-all rule with id `a`, priority 50, routing to user `uA`. -/
def exRuleA : RoutingRule :=
  { id := "a", dealerId := "d1", storeId := none, name := "A", priority := 50,
    conditions := [], routeToType := "user", routeToId := some "uA",
    fallbackRuleId := none, active := true }

/-- Catch-all rule with id `b`, the same priority 50, routing to user `uB`. -/
def exRuleB : RoutingRule :=
  { id := "b", dealerId := "d1", storeId := none, name := "B", priority := 50,
    conditions := [], routeToType := "user", routeToId := some "uB",
    fallbackRuleId := none, active := true }

/-- A rule whose condition (`department = used`) does not match `exCtx`. -/
def exRuleCond : RoutingRule :=
  { id := "c", dealerId := "d1", storeId := none, name := "C", priority := 10,
    conditions := [("department", Json.str "used")], routeToType := "user",
    routeToId := some "uA", fallbackRuleId := none, active := true }

/-- A call session that has already reached the terminal status `completed`. -/
def exDoneSession : CallSession :=
  { id := "s1", dealerId := "d1", leadId := "l1", signalwireCallSid := some "CA1",
    fromNumber := "+15550000001", toNumber := "+15550000009", swaigSessionId := none,
    status := "completed", outcome := some "qualified", answeredAt := some 5,
    endedAt := some 9, durationSeconds := some 240, transferredToUserId := none,
    transferCompleted := false, recordingUrl := none }

/-- Attempt number 1 for lead `l1`. -/
def exAttempt1 : CallAttempt :=
  { dealerId := "d1", leadId := "l1", attemptNumber := 1, status := "pending",
    scheduledFor := none }

/-- Attempt number 2 for lead `l1`. -/
def exAttempt2 : CallAttempt :=
  { dealerId := "d1", leadId := "l1", attemptNumber := 2, status := "pending",
    scheduledFor := none }

/-- Attempt number 3 for lead `l1`. -/
def exAttempt3 : CallAttempt :=
  { dealerId := "d1", leadId := "l1", attemptNumber := 3, status := "pending",
    scheduledFor := none }

theorem insertDescBy_perm (key : α → Int) (x : α) (l : List α) :
    List.Perm (insertDescBy key x l) (x :: l) := by
  induction l with
  | nil => simp [insertDescBy]
  | cons y ys ih =>
    by_cases h : key x < key y
    · simp only [insertDescBy, if_pos h]
      exact (ih.cons y).trans (List.Perm.swap x y ys)
    · simp [insertDescBy, if_neg h]

theorem sortDescBy_perm (key : α → Int) (l : List α) : List.Perm (sortDescBy key l) l := by
  induction l with
  | nil => simp [sortDescBy]
  | cons x xs ih => exact (insertDescBy_perm key x _).trans (ih.cons x)

theorem insertDescBy_pairwise (key : α → Int) (x : α) {l : List α}
    (h : List.Pairwise (fun a b => key b ≤ key a) l) :
    List.Pairwise (fun a b => key b ≤ key a) (insertDescBy key x l) := by
  induction l with
  | nil => simp [insertDescBy]
  | cons y ys ih =>
    rw [List.pairwise_cons] at h
    obtain ⟨hy, hys⟩ := h
    by_cases hxy : key x < key y
    · simp only [insertDescBy, if_pos hxy]
      rw [List.pairwise_cons]
      refine ⟨?_, ih hys⟩
      intro b hb
      have hb2 : b ∈ x :: ys := ((insertDescBy_perm key x ys).mem_iff).1 hb
      rcases List.mem_cons.1 hb2 with hbx | hbys
      · exact hbx ▸ le_of_lt hxy
      · exact hy b hbys
    · simp only [insertDescBy, if_neg hxy]
      rw [List.pairwise_cons]
      refine ⟨?_, ?_⟩
      · intro b hb
        rcases List.mem_cons.1 hb with hby | hbys
        · exact hby ▸ le_of_not_lt hxy
        · exact le_trans (hy b hbys) (le_of_not_lt hxy)
      · rw [List.pairwise_cons]
        exact ⟨hy, hys⟩

theorem sortDescBy_pairwise (key : α → Int) (l : List α) :
    List.Pairwise (fun a b => key b ≤ key a) (sortDescBy key l) := by
  induction l with
  | nil => simp [sortDescBy]
  | cons x xs ih => exact insertDescBy_pairwise key x ih

theorem sortDescBy_head_max (key : α → Int) {l : List α} {y : α} {ys : List α}
    (h : sortDescBy key l = y :: ys) : ∀ x ∈ l, key x ≤ key y := by
  intro x hx
  have hmem : x ∈ y :: ys := h ▸ ((sortDescBy_perm key l).symm.subset hx)
  rcases List.mem_cons.1 hmem with hxy | hxys
  · exact hxy ▸ le_refl _
  · have hs := sortDescBy_pairwise key l
    rw [h, List.pairwise_cons] at hs
    exact hs.1 x hxys

/-- Two sorted permutations of each other whose keys are injective on their
elements are equal: the descending order pins every position down. -/
theorem sorted_perm_unique (key : α → Int) :
    ∀ {l₁ l₂ : List α}, List.Perm l₁ l₂ →
    List.Pairwise (fun a b => key b ≤ key a) l₁ →
    List.Pairwise (fun a b => key b ≤ key a) l₂ →
    (∀ a ∈ l₁, ∀ b ∈ l₁, key a = key b → a = b) → l₁ = l₂ := by
  intro l₁
  induction l₁ with
  | nil =>
    intro l₂ hperm _ _ _
    exact (hperm.nil_eq).symm ▸ rfl
  | cons a t₁ ih =>
    intro l₂ hperm hs₁ hs₂ hinj
    cases l₂ with
    | nil => exact absurd hperm.symm.nil_eq (by simp)
    | cons b t₂ =>
      have hab : a = b := by
        by_contra hne
        have ha2 : a ∈ b :: t₂ := hperm.subset (List.mem_cons_self a t₁)
        have hat2 : a ∈ t₂ := by
          rcases List.mem_cons.1 ha2 with h | h
          · exact absurd h hne
          · exact h
        have hb1 : b ∈ a :: t₁ := hperm.symm.subset (List.mem_cons_self b t₂)
        have hbt1 : b ∈ t₁ := by
          rcases List.mem_cons.1 hb1 with h | h
          · exact absurd h.symm hne
          · exact h
        have h₁ : key b ≤ key a := by
          rw [List.pairwise_cons] at hs₁
          exact hs₁.1 b hbt1
        have h₂ : key a ≤ key b := by
          rw [List.pairwise_cons] at hs₂
          exact hs₂.1 a hat2
        exact hne (hinj a (List.mem_cons_self a t₁) b (List.mem_cons_of_mem a hbt1)
          (le_antisymm h₂ h₁))
      subst hab
      have htail : t₁ = t₂ := by
        refine ih (hperm.cons_inv) ?_ ?_ ?_
        · exact (List.pairwise_cons.1 hs₁).2
        · exact (List.pairwise_cons.1 hs₂).2
        · intro x hx y hy hxy
          exact hinj x (List.mem_cons_of_mem a hx) y (List.mem_cons_of_mem a hy) hxy
      rw [htail]

/-- `List.find?` returns the same result on any two permutations of a list,
provided at most one element (up to equality) satisfies the predicate. -/
theorem find?_perm_of_unique {p : α → Bool} {l₁ l₂ : List α} (hperm : List.Perm l₁ l₂)
    (huniq : ∀ a ∈ l₁, ∀ b ∈ l₁, p a = true → p b = true → a = b) :
    l₁.find? p = l₂.find? p := by
  cases h₁ : l₁.find? p with
  | none =>
    cases h₂ : l₂.find? p with
    | none => rfl
    | some y =>
      have hy : y ∈ l₁ := hperm.symm.subset (List.mem_of_find?_eq_some h₂)
      have hpy : p y = true := List.find?_some h₂
      have := List.find?_eq_none.1 h₁ y hy
      exact absurd hpy this
  | some x =>
    cases h₂ : l₂.find? p with
    | none =>
      have hx : x ∈ l₂ := hperm.subset (List.mem_of_find?_eq_some h₁)
      have hpx : p x = true := List.find?_some h₁
      have := List.find?_eq_none.1 h₂ x hx
      exact absurd hpx this
    | some y =>
      have hx : x ∈ l₁ := List.mem_of_find?_eq_some h₁
      have hy : y ∈ l₁ := hperm.symm.subset (List.mem_of_find?_eq_some h₂)
      rw [huniq x hx y hy (List.find?_some h₁) (List.find?_some h₂)]

theorem foldr_max_le {l : List Int} {m : Int} (h : ∀ x ∈ l, x ≤ m) (h0 : 0 ≤ m) :
    l.foldr max 0 ≤ m := by
  induction l with
  | nil => simpa using h0
  | cons a t ih =>
    simp only [List.foldr_cons]
    exact max_le (h a (List.mem_cons_self a t))
      (ih (fun x hx => h x (List.mem_cons_of_mem a hx)))

theorem le_foldr_max {l : List Int} {x : Int} (hx : x ∈ l) : x ≤ l.foldr max 0 := by
  induction l with
  | nil => cases hx
  | cons a t ih =>
    simp only [List.foldr_cons]
    rcases List.mem_cons.1 hx with rfl | hxt
    · exact le_max_left _ _
    · exact le_trans (ih hxt) (le_max_right _ _)

theorem zero_le_foldr_max (l : List Int) : 0 ≤ l.foldr max 0 := by
  induction l with
  | nil => simp
  | cons a t ih =>
    simp only [List.foldr_cons]
    exact le_trans ih (le_max_right _ _)

/-- The attempt number the service reads off the head of the descending sort
is exactly the highest existing attempt number for the lead (0 when the lead
has no attempts), provided stored attempt numbers are at least 1. -/
theorem latestAttempt_eq_highest (attempts : List CallAttempt) (leadId : String)
    (hpos : ∀ a ∈ attempts, 1 ≤ a.attemptNumber) :
    (match getLatestCallAttempt attempts leadId with
      | some a => a.attemptNumber
      | none => 0) = highestExistingAttempt attempts leadId := by
  unfold getLatestCallAttempt highestExistingAttempt
  cases hsort : sortDescBy (fun a => a.attemptNumber)
      (attempts.filter (fun a => a.leadId == leadId)) with
  | nil =>
    have hp := sortDescBy_perm (fun a : CallAttempt => a.attemptNumber)
      (attempts.filter (fun a => a.leadId == leadId))
    rw [hsort] at hp
    rw [← hp.nil_eq]
    rfl
  | cons y ys =>
    have hp := sortDescBy_perm (fun a : CallAttempt => a.attemptNumber)
      (attempts.filter (fun a => a.leadId == leadId))
    rw [hsort] at hp
    have hyfil : y ∈ attempts.filter (fun a => a.leadId == leadId) :=
      hp.subset (List.mem_cons_self y ys)
    have hymem : y ∈ attempts := (List.mem_filter.1 hyfil).1
    have hmax := sortDescBy_head_max (fun a : CallAttempt => a.attemptNumber) hsort
    have hle : ((attempts.filter (fun a => a.leadId == leadId)).map
        (fun a => a.attemptNumber)).foldr max 0 ≤ y.attemptNumber := by
      refine foldr_max_le ?_ ?_
      · intro v hv
        obtain ⟨x, hxmem, rfl⟩ := List.mem_map.1 hv
        exact hmax x hxmem
      · exact le_trans (by omega) (hpos y hymem)
    have hge : y.attemptNumber ≤ ((attempts.filter (fun a => a.leadId == leadId)).map
        (fun a => a.attemptNumber)).foldr max 0 :=
      le_foldr_max (List.mem_map_of_mem _ hyfil)
    simp only [List.head?_cons]
    exact le_antisymm hge hle

/-- No stored attempt for the lead carries the next attempt number
(highest plus one). -/
theorem next_attempt_fresh (attempts : List CallAttempt) (leadId : String) :
    attempts.any (fun a => a.leadId == leadId &&
      a.attemptNumber == highestExistingAttempt attempts leadId + 1) = false := by
  rw [List.any_eq_false]
  intro a ha hp
  rw [Bool.and_eq_true, beq_iff_eq, beq_iff_eq] at hp
  obtain ⟨hlead, hn⟩ := hp
  have hafil : a ∈ attempts.filter (fun x => x.leadId == leadId) :=
    List.mem_filter.2 ⟨ha, by simp [hlead]⟩
  have hle : a.attemptNumber ≤ highestExistingAttempt attempts leadId := by
    unfold highestExistingAttempt
    exact le_foldr_max (List.mem_map_of_mem _ hafil)
  omega

/-- Under a non-empty positive delay list and an attempt number of at least 1,
the `|| 1440` fallback of `getRetryDelay` never fires and the result is
exactly the specification's clamped index into the delay list. -/
theorem getRetryDelay_eq_specRetryDelay (profile : CallingProfile) (n : Int)
    (h1 : 1 ≤ n) (hne : profile.retryDelayMinutes ≠ [])
    (hposd : ∀ d ∈ profile.retryDelayMinutes, 0 < d) :
    getRetryDelay profile n = specRetryDelay profile n := by
  have hlen : 1 ≤ (profile.retryDelayMinutes.length : Int) := by
    have := List.length_pos.2 hne
    omega
  have hidx0 : (0 : Int) ≤ min (n - 1) ((profile.retryDelayMinutes.length : Int) - 1) :=
    le_min (by omega) (by omega)
  have hidxlt : (min (n - 1) ((profile.retryDelayMinutes.length : Int) - 1)).toNat <
      profile.retryDelayMinutes.length := by
    have hr : min (n - 1) ((profile.retryDelayMinutes.length : Int) - 1) ≤
        (profile.retryDelayMinutes.length : Int) - 1 := min_le_right _ _
    omega
  have hget := List.getElem?_eq_getElem hidxlt
  have hdpos : 0 < profile.retryDelayMinutes[(min (n - 1)
      ((profile.retryDelayMinutes.length : Int) - 1)).toNat] :=
    hposd _ (List.getElem_mem hidxlt)
  have hdne : (profile.retryDelayMinutes[(min (n - 1)
      ((profile.retryDelayMinutes.length : Int) - 1)).toNat] == 0) = false := by
    rw [beq_eq_false_iff_ne]
    omega
  simp only [getRetryDelay, specRetryDelay, jsIndex]
  rw [if_neg (not_lt.2 hidx0), hget, List.getD_eq_getElem?_getD, hget]
  simp [hdne]

/-- The scan loop of `route` computes exactly the specification's
first-matching-rule-with-available-target selection. -/
theorem routeAux_eq_specFirstTarget (rulesTable : List RoutingRule) (users : List DealerUser)
    (ctx : RoutingContext) : ∀ rules : List RoutingRule,
    routeAux rulesTable users ctx rules =
      (match specFirstTarget rulesTable users ctx rules with
        | some t => .ok t
        | none => .error .noAvailableRep) := by
  intro rules
  induction rules with
  | nil => rfl
  | cons rule rest ih =>
    cases hm : evaluateRuleConditions rule.conditions ctx with
    | false =>
      simp only [routeAux, specFirstTarget, hm, Bool.false_eq_true, if_false]
      exact ih
    | true =>
      cases hres : resolveRuleTarget users rule with
      | some t =>
        simp only [routeAux, specFirstTarget, specAvailableTarget, hm, if_true, hres]
      | none =>
        cases hf : rule.fallbackRuleId with
        | none =>
          simp only [routeAux, specFirstTarget, specAvailableTarget, hm, if_true, hres, hf]
          exact ih
        | some fid =>
          cases hfr : List.find? (fun r => r.id == fid) rulesTable with
          | none =>
            simp only [routeAux, specFirstTarget, specAvailableTarget, hm, if_true,
              hres, hf, hfr]
            exact ih
          | some fallbackRule =>
            cases hft : resolveRuleTarget users fallbackRule with
            | some t =>
              simp only [routeAux, specFirstTarget, specAvailableTarget, hm, if_true,
                hres, hf, hfr, hft]
            | none =>
              simp only [routeAux, specFirstTarget, specAvailableTarget, hm, if_true,
                hres, hf, hfr, hft]
              exact ih

/-- The scan loop never raises `NoRoutingRuleError`. -/
theorem routeAux_ne_noRoutingRule (rulesTable : List RoutingRule) (users : List DealerUser)
    (ctx : RoutingContext) (rules : List RoutingRule) :
    routeAux rulesTable users ctx rules ≠ .error .noRoutingRule := by
  rw [routeAux_eq_specFirstTarget]
  cases specFirstTarget rulesTable users ctx rules with
  | some t => intro h; exact Except.noConfusion h
  | none => decide

/-- Two permuted rule tables produce the same sorted filtered rule list,
provided the filter keeps only rules with pairwise distinct priorities. -/
theorem sortDescBy_filter_perm_eq (p : RoutingRule → Bool) {t₁ t₂ : List RoutingRule}
    (hperm : List.Perm t₁ t₂)
    (hinj : ∀ a ∈ t₁, ∀ b ∈ t₁, p a = true → p b = true → a.priority = b.priority → a = b) :
    sortDescBy (fun r => r.priority) (t₁.filter p) =
      sortDescBy (fun r => r.priority) (t₂.filter p) := by
  apply sorted_perm_unique (fun r => r.priority)
  · exact (sortDescBy_perm _ _).trans ((hperm.filter p).trans (sortDescBy_perm _ _).symm)
  · exact sortDescBy_pairwise _ _
  · exact sortDescBy_pairwise _ _
  · intro a ha b hb hpr
    have ha2 := (sortDescBy_perm (fun r : RoutingRule => r.priority) (t₁.filter p)).subset ha
    have hb2 := (sortDescBy_perm (fun r : RoutingRule => r.priority) (t₁.filter p)).subset hb
    obtain ⟨ha₁, hap⟩ := List.mem_filter.1 ha2
    obtain ⟨hb₁, hbp⟩ := List.mem_filter.1 hb2
    exact hinj a ha₁ b hb₁ hap hbp hpr

/-- `getActiveRules` returns the same list on any two permutations of the rule
table when the dealer's active rules have pairwise distinct priorities. -/
theorem getActiveRules_perm_eq {t₁ t₂ : List RoutingRule} (hperm : List.Perm t₁ t₂)
    (dealerId : String) (storeId : Option String)
    (hprio : ∀ a ∈ t₁, ∀ b ∈ t₁, ruleIsActiveForDealer dealerId a = true →
      ruleIsActiveForDealer dealerId b = true → a.priority = b.priority → a = b) :
    getActiveRules t₁ dealerId storeId = getActiveRules t₂ dealerId storeId := by
  have hbase := sortDescBy_filter_perm_eq (ruleIsActiveForDealer dealerId) hperm hprio
  cases storeId with
  | none =>
    simp only [getActiveRules]
    exact hbase
  | some sid =>
    have hstore : sortDescBy (fun r => r.priority)
        (t₁.filter (fun r => ruleIsActiveForDealer dealerId r && r.storeId == some sid)) =
        sortDescBy (fun r => r.priority)
          (t₂.filter (fun r => ruleIsActiveForDealer dealerId r && r.storeId == some sid)) := by
      apply sortDescBy_filter_perm_eq _ hperm
      intro a ha b hb hpa hpb hpr
      rw [Bool.and_eq_true] at hpa hpb
      exact hprio a ha b hb hpa.1 hpb.1 hpr
    simp only [getActiveRules]
    rw [hbase, hstore]

/-- The scan loop gives the same answer over any two permutations of the rule
table with unique rule ids (the table is only consulted for fallback-rule
lookups by primary key). -/
theorem routeAux_table_perm_eq {t₁ t₂ : List RoutingRule} (hperm : List.Perm t₁ t₂)
    (users : List DealerUser) (ctx : RoutingContext)
    (hid : ∀ a ∈ t₁, ∀ b ∈ t₁, a.id = b.id → a = b) :
    ∀ rules : List RoutingRule,
      routeAux t₁ users ctx rules = routeAux t₂ users ctx rules := by
  have hfind : ∀ fid : String, List.find? (fun r => r.id == fid) t₁ =
      List.find? (fun r => r.id == fid) t₂ := by
    intro fid
    apply find?_perm_of_unique hperm
    intro a ha b hb hpa hpb
    have ha2 : a.id = fid := by simpa using hpa
    have hb2 : b.id = fid := by simpa using hpb
    exact hid a ha b hb (ha2.trans hb2.symm)
  intro rules
  induction rules with
  | nil => rfl
  | cons rule rest ih =>
    cases hm : evaluateRuleConditions rule.conditions ctx with
    | false =>
      simp only [routeAux, hm, Bool.false_eq_true, if_false]
      exact ih
    | true =>
      cases hres : resolveRuleTarget users rule with
      | some t => simp only [routeAux, hm, if_true, hres]
      | none =>
        cases hf : rule.fallbackRuleId with
        | none =>
          simp only [routeAux, hm, if_true, hres, hf]
          exact ih
        | some fid =>
          simp only [routeAux, hm, if_true, hres, hf, hfind fid]
          cases hfr : List.find? (fun r => r.id == fid) t₂ with
          | none => exact ih
          | some fallbackRule =>
            cases hft : resolveRuleTarget users fallbackRule with
            | some t => simp only [hft]
            | none =>
              simp only [hft]
              exact ih

/-! ## Claim theorems -/

/-- Claim C1: the compliance check is supposed to report blocked exactly when a
matching opt-out record exists and allowed when none does.  The source compares
drizzle's row-or-undefined `findFirst` result against `null` with `!==`, which
is never false, so `isOptedOut` reports blocked on every input — in particular
on an empty opt-out table, where the model written from the specification
reports allowed.  Absence of a record IS treated as suppressed. -/
theorem c1_isOptedOut_always_blocked :
    (∀ (optOutTable : List OptOutRecord) (dealerId phone channel : String),
      isOptedOut optOutTable dealerId phone channel = true) ∧
    specOptedOut [] "d1" "9195551234" "call" = false := by
  refine ⟨?_, by decide⟩
  intro optOutTable dealerId phone channel
  show jsStrictNeNull
    (findFirstJs (optOutMatches dealerId (toE164 phone) channel) optOutTable) = true
  unfold findFirstJs
  cases optOutTable.find? (optOutMatches dealerId (toE164 phone) channel) <;> rfl

/-- Claim C2: the rate-limit check is supposed to compute the dealer's actual
concurrent in-flight count and trailing-hour count and compare them against
the profile ceilings.  The implementation is a stub (its body carries the
source comment `TODO: Query active calls and recent calls from database`): the
state it checks holds the constants 0, so for every profile with positive
ceilings the check passes, regardless of how many calls are actually in
flight — the embedding consults no call data at all. -/
theorem c2_checkRateLimits_ignores_call_data (profile : CallingProfile)
    (hc : 0 < profile.maxConcurrentCalls) (hh : 0 < profile.maxCallsPerHour) :
    checkRateLimits profile = .ok () := by
  have h1 : ¬ ((0 : Int) ≥ profile.maxConcurrentCalls) := not_le.2 hc
  have h2 : ¬ ((0 : Int) ≥ profile.maxCallsPerHour) := not_le.2 hh
  simp [checkRateLimits, getRateLimitState, h1, h2]

/-- Witness for C2 at the default profile (ceilings 3 and 50). -/
theorem c2_checkRateLimits_ignores_call_data_witness :
    checkRateLimits (defaultCallingProfile "d1") = .ok () :=
  c2_checkRateLimits_ignores_call_data (defaultCallingProfile "d1") (by decide) (by decide)

/-- Claim C10 counterexample: `constructor` is not a key of the translation
table, yet the claim's universal fallback fails there — the bracket lookup
`statusMap['constructor']` returns the truthy inherited
`Object.prototype.constructor`, and `|| 'initiated'` passes that member
through, so the program does not map this out-of-table status to
`initiated`. -/
theorem c10_counterexample_prototype_lookup :
    signalwireStatusMap.lookup "constructor" = none ∧
    mapSignalWireStatusJs "constructor" = .inheritedMember "constructor" ∧
    StatusLookupResult.inheritedMember "constructor" ≠ .str "initiated" := by
  refine ⟨by decide, by decide, by decide⟩

/-- Claim C10 (amended): provider statuses in the table are written through
the fixed translation table; any other status maps to the entry state
`initiated` unless it names an inherited `Object.prototype` property
(`constructor`, `toString`, `hasOwnProperty`, `__proto__`, ...), in which
case the lookup returns that truthy inherited member instead of falling back.
Away from the prototype names, the string-valued model used by the webhook
embedding agrees with the full lookup. -/
theorem c10_amended_status_map :
    (mapSignalWireStatusJs "queued" = .str "initiated" ∧
     mapSignalWireStatusJs "initiated" = .str "initiated" ∧
     mapSignalWireStatusJs "ringing" = .str "ringing" ∧
     mapSignalWireStatusJs "in-progress" = .str "answered" ∧
     mapSignalWireStatusJs "completed" = .str "completed" ∧
     mapSignalWireStatusJs "failed" = .str "failed" ∧
     mapSignalWireStatusJs "busy" = .str "busy" ∧
     mapSignalWireStatusJs "no-answer" = .str "no_answer" ∧
     mapSignalWireStatusJs "canceled" = .str "failed") ∧
    (∀ s : String,
      s ∉ ["queued", "initiated", "ringing", "in-progress", "completed",
           "failed", "busy", "no-answer", "canceled"] →
      objectPrototypeKeys.contains s = false →
      mapSignalWireStatusJs s = .str "initiated") ∧
    (∀ s : String,
      s ∉ ["queued", "initiated", "ringing", "in-progress", "completed",
           "failed", "busy", "no-answer", "canceled"] →
      objectPrototypeKeys.contains s = true →
      mapSignalWireStatusJs s = .inheritedMember s) ∧
    (∀ s : String, objectPrototypeKeys.contains s = false →
      mapSignalWireStatusJs s = .str (mapSignalWireStatus s)) := by
  have hnone : ∀ s : String,
      s ∉ ["queued", "initiated", "ringing", "in-progress", "completed",
           "failed", "busy", "no-answer", "canceled"] →
      signalwireStatusMap.lookup s = none := by
    intro s hs
    simp only [List.mem_cons, List.not_mem_nil, or_false, not_or] at hs
    obtain ⟨h1, h2, h3, h4, h5, h6, h7, h8, h9⟩ := hs
    have b1 : (s == "queued") = false := beq_eq_false_iff_ne.2 h1
    have b2 : (s == "initiated") = false := beq_eq_false_iff_ne.2 h2
    have b3 : (s == "ringing") = false := beq_eq_false_iff_ne.2 h3
    have b4 : (s == "in-progress") = false := beq_eq_false_iff_ne.2 h4
    have b5 : (s == "completed") = false := beq_eq_false_iff_ne.2 h5
    have b6 : (s == "failed") = false := beq_eq_false_iff_ne.2 h6
    have b7 : (s == "busy") = false := beq_eq_false_iff_ne.2 h7
    have b8 : (s == "no-answer") = false := beq_eq_false_iff_ne.2 h8
    have b9 : (s == "canceled") = false := beq_eq_false_iff_ne.2 h9
    simp [signalwireStatusMap, List.lookup, b1, b2, b3, b4, b5, b6, b7, b8, b9]
  refine ⟨by decide, ?_, ?_, ?_⟩
  · intro s hs hc
    simp only [mapSignalWireStatusJs, hnone s hs]
    rw [hc]
    rfl
  · intro s hs hc
    simp only [mapSignalWireStatusJs, hnone s hs]
    rw [hc]
    rfl
  · intro s hc
    cases hl : signalwireStatusMap.lookup s with
    | some v => simp [mapSignalWireStatusJs, mapSignalWireStatus, hl]
    | none =>
      simp only [mapSignalWireStatusJs, mapSignalWireStatus, hl]
      rw [hc]
      rfl

/-- Witness for C10 (amended) at one status per branch: an unknown status
falls back to `initiated`, a prototype name yields the inherited member, and
an in-table status agrees with the string-valued model. -/
theorem c10_amended_status_map_witness :
    mapSignalWireStatusJs "voicemail-reached" = .str "initiated" ∧
    mapSignalWireStatusJs "toString" = .inheritedMember "toString" ∧
    mapSignalWireStatusJs "ringing" = .str (mapSignalWireStatus "ringing") :=
  ⟨c10_amended_status_map.2.1 "voicemail-reached" (by decide) (by decide),
   c10_amended_status_map.2.2.1 "toString" (by decide) (by decide),
   c10_amended_status_map.2.2.2 "ringing" (by decide)⟩

/-- Claim C7: the calling-window check returns true iff the instant's
dealer-local weekday is in the profile's allowed set and its local
minutes-since-midnight lies inclusively between the parsed start and end
minutes; an instant whose local time is exactly one minute past the end yields
false.  The instant-to-local-time conversion is the opaque `tzConvert`
argument, quantified over. -/
theorem c7_callingWindow_iff (tzConvert : String → Int → ZonedDate)
    (dealer : Dealer) (profiles : List CallingProfile) (date : Int)
    (startT endT : Int)
    (hs : timeToMinutes (getCallingProfile profiles dealer.id).callingHoursStart = some startT)
    (he : timeToMinutes (getCallingProfile profiles dealer.id).callingHoursEnd = some endT) :
    (isWithinCallingWindow tzConvert dealer profiles date = true ↔
      ((getCallingProfile profiles dealer.id).callingDaysOfWeek.contains
          (tzConvert dealer.timezone date).dayOfWeek = true ∧
        startT ≤ (tzConvert dealer.timezone date).hours * 60 +
          (tzConvert dealer.timezone date).minutes ∧
        (tzConvert dealer.timezone date).hours * 60 +
          (tzConvert dealer.timezone date).minutes ≤ endT)) ∧
    ((tzConvert dealer.timezone date).hours * 60 + (tzConvert dealer.timezone date).minutes
        = endT + 1 →
      isWithinCallingWindow tzConvert dealer profiles date = false) := by
  have hrw : isWithinCallingWindow tzConvert dealer profiles date =
      (if !((getCallingProfile profiles dealer.id).callingDaysOfWeek.contains
            (tzConvert dealer.timezone date).dayOfWeek) then false
       else decide (startT ≤ (tzConvert dealer.timezone date).hours * 60 +
              (tzConvert dealer.timezone date).minutes ∧
            (tzConvert dealer.timezone date).hours * 60 +
              (tzConvert dealer.timezone date).minutes ≤ endT)) := by
    simp only [isWithinCallingWindow]
    rw [hs, he]
  constructor
  · rw [hrw]
    by_cases hday : (getCallingProfile profiles dealer.id).callingDaysOfWeek.contains
        (tzConvert dealer.timezone date).dayOfWeek
    · simp [hday]
    · simp [hday]
  · intro hm
    rw [hrw, hm]
    by_cases hday : (getCallingProfile profiles dealer.id).callingDaysOfWeek.contains
        (tzConvert dealer.timezone date).dayOfWeek
    · simp only [hday, Bool.not_true, Bool.false_eq_true, if_false, decide_eq_false_iff_not]
      intro hcontra
      omega
    · simp [hday]

/-- Witness for C7: with the default profile (window 08:00 to 20:00) and a
conversion placing the instant at Monday 20:01 local, the check is false. -/
theorem c7_callingWindow_iff_witness :
    isWithinCallingWindow (fun _ _ => { dayOfWeek := 1, hours := 20, minutes := 1 })
      { id := "d1", timezone := "America/New_York", status := "active" } [] 0 = false :=
  (c7_callingWindow_iff (fun _ _ => { dayOfWeek := 1, hours := 20, minutes := 1 })
    { id := "d1", timezone := "America/New_York", status := "active" } [] 0
    480 1200 (by decide) (by decide)).2 (by decide)

/-- Claim C8 counterexample: a session already in the terminal status
`completed` that receives a late `ringing` provider callback is mutated — its
status is overwritten to `ringing` — contradicting the claim that every later
status update leaves a terminal session unchanged. -/
theorem c8_counterexample_terminal_session_mutated :
    isTerminalStatus exDoneSession.status = true ∧
    handleStatusCallback [exDoneSession] "CA1" "ringing" none 100 =
      [{ exDoneSession with status := "ringing" }] ∧
    ({ exDoneSession with status := "ringing" } : CallSession) ≠ exDoneSession := by
  refine ⟨by decide, by decide, by decide⟩

/-- Claim C8 (amended): neither `updateCallSession` nor the status webhook
guards on the session's current status: every status callback that finds a
session overwrites that session's status with the mapped provider status,
whether or not the stored status was terminal. -/
theorem c8_amended_status_update_unconditional (sessions : List CallSession)
    (sid status : String) (dur : Option Int) (now : Int) (s : CallSession)
    (hfind : getCallSessionBySignalwireSid sessions sid = some s) :
    ∀ r ∈ handleStatusCallback sessions sid status dur now,
      r.id = s.id → r.status = mapSignalWireStatus status := by
  intro r hr hid
  have hstatus : (statusCallbackUpdates status dur now).status =
      some (mapSignalWireStatus status) := by
    by_cases h1 : status == "completed" && dur.isSome
    · simp [statusCallbackUpdates, h1]
    · by_cases h2 : status == "in-progress"
      · simp [statusCallbackUpdates, h1, h2]
      · simp [statusCallbackUpdates, h1, h2]
  simp only [handleStatusCallback, hfind, updateCallSession] at hr
  obtain ⟨s', hs', heq⟩ := List.mem_map.1 hr
  by_cases hsid : s'.id == s.id
  · rw [if_pos hsid] at heq
    rw [← heq]
    show (applySessionUpdate s' (statusCallbackUpdates status dur now)).status =
      mapSignalWireStatus status
    rw [applySessionUpdate]
    simp [hstatus]
  · rw [if_neg hsid] at heq
    subst heq
    exact absurd (by simpa using hid) (by simpa using hsid)

/-- Witness for C8 (amended) at the concrete completed session. -/
theorem c8_amended_status_update_unconditional_witness :
    ({ exDoneSession with status := "ringing" } : CallSession).status =
      mapSignalWireStatus "ringing" :=
  c8_amended_status_update_unconditional [exDoneSession] "CA1" "ringing" none 100
    exDoneSession (by decide) { exDoneSession with status := "ringing" }
    (by decide) (by decide)

/-- Claim C9 counterexample: re-running attempt creation for lead `l1` with
the already-used sequence number 1 does not detect the existing attempt and
no-op — the blind insert is rejected by the `unique_lead_attempt` index and
the step fails with an error instead of leaving the state unchanged
successfully. -/
theorem c9_counterexample_rerun_is_not_noop :
    createCallAttempt (defaultCallingProfile "d1") [exAttempt1] "d1" "l1" 1 none =
      .error .uniqueViolation := by
  decide

/-- Claim C9 (amended): the create-attempt step performs no existence check of
its own; it blindly inserts.  When a row with the same lead and sequence
number already exists the database unique index rejects the insert and the
step fails with an error (so the state still holds exactly one row per pair,
but there is no detect-and-no-op); when no such row exists the insert appends
exactly the one new row. -/
theorem c9_amended_blind_insert (profile : CallingProfile) (attempts : List CallAttempt)
    (dealerId leadId : String) (n : Int) (sched : Option Int)
    (hle : n ≤ profile.maxAttemptsPerLead) :
    (attempts.any (fun a => a.leadId == leadId && a.attemptNumber == n) = true →
      createCallAttempt profile attempts dealerId leadId n sched = .error .uniqueViolation) ∧
    (attempts.any (fun a => a.leadId == leadId && a.attemptNumber == n) = false →
      createCallAttempt profile attempts dealerId leadId n sched =
        .ok (attempts ++
            [{ dealerId := dealerId, leadId := leadId, attemptNumber := n,
               status := if sched.isSome then "scheduled" else "pending",
               scheduledFor := sched }],
          { dealerId := dealerId, leadId := leadId, attemptNumber := n,
            status := if sched.isSome then "scheduled" else "pending",
            scheduledFor := sched })) := by
  have hnotgt : ¬ (n > profile.maxAttemptsPerLead) := not_lt.2 hle
  constructor
  · intro h
    simp [createCallAttempt, hnotgt, h]
  · intro h
    simp [createCallAttempt, hnotgt, h]

/-- Witness for C9 (amended): duplicate insert of attempt 1 fails, fresh
insert of attempt 2 appends one row. -/
theorem c9_amended_blind_insert_witness :
    createCallAttempt (defaultCallingProfile "d1") [exAttempt1] "d1" "l1" 1 none =
      .error .uniqueViolation ∧
    createCallAttempt (defaultCallingProfile "d1") [exAttempt1] "d1" "l1" 2 none =
      .ok ([exAttempt1,
        { dealerId := "d1", leadId := "l1", attemptNumber := 2, status := "pending",
          scheduledFor := none }],
        { dealerId := "d1", leadId := "l1", attemptNumber := 2, status := "pending",
          scheduledFor := none }) := by
  constructor
  · exact (c9_amended_blind_insert (defaultCallingProfile "d1") [exAttempt1] "d1" "l1" 1 none
      (by decide)).1 (by decide)
  · exact ((c9_amended_blind_insert (defaultCallingProfile "d1") [exAttempt1] "d1" "l1" 2 none
      (by decide)).2 (by decide)).trans (by decide)

/-- Claim C6: the retry scheduler takes the next attempt number to be one
greater than the highest existing attempt number for the lead (1 when none
exists); whenever that number exceeds the profile's `maxAttemptsPerLead` it
raises the terminal `MaxAttemptsError` — never a silent cap — and otherwise it
creates the attempt scheduled at now plus
`retryDelayMinutes[min(attemptNumber - 1, length - 1)]` minutes. -/
theorem c6_scheduleRetry_spec (profile : CallingProfile) (attempts : List CallAttempt)
    (dealerId leadId : String) (now : Int)
    (hpos : ∀ a ∈ attempts, 1 ≤ a.attemptNumber)
    (hne : profile.retryDelayMinutes ≠ [])
    (hposd : ∀ d ∈ profile.retryDelayMinutes, 0 < d) :
    (highestExistingAttempt attempts leadId + 1 > profile.maxAttemptsPerLead →
      scheduleRetry profile attempts dealerId leadId now =
        .error (.maxAttempts leadId profile.maxAttemptsPerLead)) ∧
    (highestExistingAttempt attempts leadId + 1 ≤ profile.maxAttemptsPerLead →
      scheduleRetry profile attempts dealerId leadId now =
        .ok (attempts ++
            [{ dealerId := dealerId, leadId := leadId,
               attemptNumber := highestExistingAttempt attempts leadId + 1,
               status := "scheduled",
               scheduledFor := some (now +
                 specRetryDelay profile (highestExistingAttempt attempts leadId + 1)) }],
          { dealerId := dealerId, leadId := leadId,
            attemptNumber := highestExistingAttempt attempts leadId + 1,
            status := "scheduled",
            scheduledFor := some (now +
              specRetryDelay profile (highestExistingAttempt attempts leadId + 1)) })) := by
  have hnum := latestAttempt_eq_highest attempts leadId hpos
  have hH0 : 0 ≤ highestExistingAttempt attempts leadId := by
    unfold highestExistingAttempt
    exact zero_le_foldr_max _
  have hdelay := getRetryDelay_eq_specRetryDelay profile
    (highestExistingAttempt attempts leadId + 1) (by omega) hne hposd
  have hfresh := next_attempt_fresh attempts leadId
  constructor
  · intro hgt
    simp only [scheduleRetry, hnum, createCallAttempt, if_pos hgt]
  · intro hle
    simp only [scheduleRetry, hnum, createCallAttempt, if_neg (not_lt.2 hle), hdelay,
      hfresh, Bool.false_eq_true, if_false, Option.isSome_some, if_true]

/-- Witness for C6 with the default profile (ceiling 3, delays [30, 120,
1440]): with attempts 1 and 2 existing, attempt 3 is scheduled 1440 minutes
out; with attempts 1 through 3 existing, attempt 4 is a fatal max-attempts
error. -/
theorem c6_scheduleRetry_spec_witness :
    scheduleRetry (defaultCallingProfile "d1") [exAttempt1, exAttempt2] "d1" "l1" 1000 =
      .ok ([exAttempt1, exAttempt2,
        { dealerId := "d1", leadId := "l1", attemptNumber := 3, status := "scheduled",
          scheduledFor := some 2440 }],
        { dealerId := "d1", leadId := "l1", attemptNumber := 3, status := "scheduled",
          scheduledFor := some 2440 }) ∧
    scheduleRetry (defaultCallingProfile "d1") [exAttempt1, exAttempt2, exAttempt3]
        "d1" "l1" 1000 =
      .error (.maxAttempts "l1" 3) := by
  constructor
  · exact ((c6_scheduleRetry_spec (defaultCallingProfile "d1") [exAttempt1, exAttempt2]
      "d1" "l1" 1000 (by decide) (by decide) (by decide)).2 (by decide)).trans (by decide)
  · exact (c6_scheduleRetry_spec (defaultCallingProfile "d1")
      [exAttempt1, exAttempt2, exAttempt3]
      "d1" "l1" 1000 (by decide) (by decide) (by decide)).1 (by decide)

/-- Claim C4: `route` scans the active rules in priority-descending order (the
loaded rule list is sorted by priority descending) and returns the target of
the first rule whose conditions all match — an empty condition set matches any
context — and which has an available target, its own or, failing that, its
fallback rule's; a matched rule with neither leaves the scan to continue with
the remaining lower-priority rules.  Equivalently, `route` equals the
specification's first-match-with-availability selection over the loaded
rules. -/
theorem c4_route_first_available (rulesTable : List RoutingRule) (users : List DealerUser)
    (ctx : RoutingContext) :
    (route rulesTable users ctx =
      (if (getActiveRules rulesTable ctx.dealerId ctx.storeId).length == 0 then
        .error .noRoutingRule
       else
        match specFirstTarget rulesTable users ctx
            (getActiveRules rulesTable ctx.dealerId ctx.storeId) with
        | some t => .ok t
        | none => .error .noAvailableRep)) ∧
    List.Pairwise (fun a b => b.priority ≤ a.priority)
      (getActiveRules rulesTable ctx.dealerId ctx.storeId) ∧
    (∀ c : RoutingContext, evaluateRuleConditions [] c = true) := by
  refine ⟨?_, ?_, fun c => rfl⟩
  · have haux := routeAux_eq_specFirstTarget rulesTable users ctx
      (getActiveRules rulesTable ctx.dealerId ctx.storeId)
    unfold route
    cases hlen : (getActiveRules rulesTable ctx.dealerId ctx.storeId).length == 0 with
    | true => simp [hlen]
    | false => simp [hlen, haux]
  · rcases hsid : ctx.storeId with _ | sid
    · simp only [getActiveRules, hsid]
      exact sortDescBy_pairwise _ _
    · simp only [getActiveRules, hsid]
      exact sortDescBy_pairwise _ _

/-- Claim C5 counterexample: dealer `d1` has one active rule, whose condition
`department = used` does not match the context (`department = new`), so no
rule's conditions match at all — yet `route` raises `NoAvailableRepError`,
not the claimed `NoRoutingRuleError`. -/
theorem c5_counterexample_no_match_not_noRoutingRule :
    (getActiveRules [exRuleCond] "d1" none).all
        (fun r => !(evaluateRuleConditions r.conditions exCtx)) = true ∧
    (getActiveRules [exRuleCond] "d1" none).isEmpty = false ∧
    route [exRuleCond] [exUserA] exCtx = .error .noAvailableRep := by
  refine ⟨by decide, by decide, by decide⟩

/-- Claim C5 (amended): `NoRoutingRuleError` is raised exactly when the dealer
has no active rules at all; whenever active rules exist, a context matching
zero rules ends in the same `NoAvailableRepError` as a matched rule whose own
and fallback targets are unavailable — the two situations are distinguished
only by the emptiness of the active rule list. -/
theorem c5_amended_noRoutingRule_iff_no_rules (rulesTable : List RoutingRule)
    (users : List DealerUser) (ctx : RoutingContext) :
    route rulesTable users ctx = .error .noRoutingRule ↔
      getActiveRules rulesTable ctx.dealerId ctx.storeId = [] := by
  unfold route
  cases hlen : (getActiveRules rulesTable ctx.dealerId ctx.storeId).length == 0 with
  | true =>
    have hempty : getActiveRules rulesTable ctx.dealerId ctx.storeId = [] :=
      List.length_eq_zero.1 (by simpa using hlen)
    simp [hlen, hempty]
  | false =>
    have hne : getActiveRules rulesTable ctx.dealerId ctx.storeId ≠ [] := by
      intro h
      rw [h] at hlen
      simp at hlen
    simp only [hlen, Bool.false_eq_true, if_false]
    constructor
    · intro h
      exact absurd h (routeAux_ne_noRoutingRule rulesTable users ctx _)
    · intro h
      exact absurd h hne

/-- Claim C3 counterexample: two database states holding the same two active
equal-priority catch-all rules (one a permutation of the other, rule ids `a`
and `b`) route the same context to different targets — whichever rule is
stored first wins.  Ties are therefore broken by database row order, not by
the claimed (scope-specificity, priority, rule id) total order; in particular
not by rule id, since rule `b` beats rule `a` when stored first. -/
theorem c3_counterexample_tie_depends_on_row_order :
    List.Perm [exRuleB, exRuleA] [exRuleA, exRuleB] ∧
    route [exRuleB, exRuleA] [exUserA, exUserB] exCtx = .ok (mkUserTarget exUserB) ∧
    route [exRuleA, exRuleB] [exUserA, exUserB] exCtx = .ok (mkUserTarget exUserA) ∧
    mkUserTarget exUserB ≠ mkUserTarget exUserA := by
  refine ⟨List.Perm.swap exRuleA exRuleB [], by decide, by decide, by decide⟩

/-- Claim C3 (amended): for a fixed database state `route` is a pure function
of the stored tables and the context, so any two evaluations agree; and when
the dealer's active rules carry pairwise distinct priorities (and rule ids are
unique, as the primary key guarantees), the result is furthermore independent
of the stored row order.  Between equal-priority rules, however, ties are
broken by row order — store-scoped rules first, then the order rows come back
from the database — not by rule id. -/
theorem c3_amended_route_deterministic_up_to_ties (t₁ t₂ : List RoutingRule)
    (users : List DealerUser) (ctx : RoutingContext)
    (hperm : List.Perm t₁ t₂)
    (hid : List.Pairwise (fun a b => a.id ≠ b.id) t₁)
    (hprio : List.Pairwise (fun a b =>
      ruleIsActiveForDealer ctx.dealerId a = true →
      ruleIsActiveForDealer ctx.dealerId b = true → a.priority ≠ b.priority) t₁) :
    route t₁ users ctx = route t₂ users ctx := by
  have hidm : ∀ a ∈ t₁, ∀ b ∈ t₁, a.id = b.id → a = b := by
    intro a ha b hb h
    by_contra hne
    exact (List.Pairwise.forall (fun x y hxy => Ne.symm hxy) hid ha hb hne) h
  have hsymm : Symmetric (fun a b : RoutingRule =>
      ruleIsActiveForDealer ctx.dealerId a = true →
      ruleIsActiveForDealer ctx.dealerId b = true → a.priority ≠ b.priority) := by
    intro x y hxy hy hx
    exact Ne.symm (hxy hx hy)
  have hpriom : ∀ a ∈ t₁, ∀ b ∈ t₁, ruleIsActiveForDealer ctx.dealerId a = true →
      ruleIsActiveForDealer ctx.dealerId b = true → a.priority = b.priority → a = b := by
    intro a ha b hb hpa hpb hpr
    by_contra hne
    exact (List.Pairwise.forall hsymm hprio ha hb hne) hpa hpb hpr
  have hrules := getActiveRules_perm_eq hperm ctx.dealerId ctx.storeId hpriom
  unfold route
  rw [hrules]
  cases hlen : (getActiveRules t₂ ctx.dealerId ctx.storeId).length == 0 with
  | true => simp [hlen]
  | false =>
    simp only [hlen, Bool.false_eq_true, if_false]
    exact routeAux_table_perm_eq hperm users ctx hidm _

/-- Witness for C3 (amended): two permuted tables whose two rules have the
distinct priorities 50 and 10 route identically. -/
theorem c3_amended_route_deterministic_up_to_ties_witness :
    route [exRuleA, exRuleCond] [exUserA, exUserB] exCtx =
      route [exRuleCond, exRuleA] [exUserA, exUserB] exCtx :=
  c3_amended_route_deterministic_up_to_ties [exRuleA, exRuleCond] [exRuleCond, exRuleA]
    [exUserA, exUserB] exCtx (List.Perm.swap exRuleCond exRuleA [])
    (by decide) (by decide)

end DealerBDC
